import Mathlib

/-!
Verification development for the goform repository (package goform).

The package binds HTTP request data (query string, url-encoded bodies,
multipart form values and file parts, JSON bodies) onto a caller-supplied
struct, driven by per-field `form` tags.  The definitions below are a shallow
embedding, translated from `unmarshal.go` and `tag.go`; external collaborators
(the Go standard library's `strconv`, `mime`, `encoding/base64`,
`encoding/json`, `time` and `image` packages) are modelled from their
documented behaviour where the exact behaviour matters to a theorem, and are
clearly marked where the model abstracts.

Go machine integers are modelled as `Nat` / `Int` with explicit bounds
(`maxUint64`, cutoffs) exactly where the Go code checks them; byte strings are
`List Nat` of byte values; fallible Go functions return `Except GoErr` or pair
their result with an `Option` error, matching the Go calling convention that
is relevant (in particular, `Unmarshal` mutates the destination in place, so
its model returns the final destination state together with the error).
-/

namespace Goform

/-- Error causes produced by the modelled `strconv` parse functions
(`ErrSyntax`, `ErrRange`, base and bit-size errors). -/
inductive ParseErr where
  | errSyntax : ParseErr
  | errRange : ParseErr
  | errBase (b : Int) : ParseErr
  | errBitSize (b : Int) : ParseErr
deriving DecidableEq, Repr

/-- Errors returned by the modelled code.  `msg` models `errors.New` /
`fmt.Errorf` values by their message (as goform itself builds them);
`numError` models `strconv.NumError` (function name, offending input, cause);
`jsonError` models errors produced by the external `encoding/json` decoder;
`timeError` models errors from the external `time` package. -/
inductive GoErr where
  | msg (s : String) : GoErr
  | numError (fn : String) (num : String) (cause : ParseErr) : GoErr
  | jsonError (s : String) : GoErr
  | timeError (s : String) : GoErr
deriving DecidableEq, Repr

/-- Tag option flags, from `tag.go` (`type flags struct`). -/
structure flags where
  base64 : Bool
  required : Bool
deriving DecidableEq, Repr

/-- Value of a parsed `time.Time`, abstract: the layout, raw value and zone
that produced it.  No claim concerns the arithmetic of time values. -/
structure TimeVal where
  layout : String
  raw : String
  zone : String
deriving DecidableEq, Repr

/-- Reflection kinds (`reflect.Kind`) that matter to the dispatch in
`unmarshal.go`: the kinds named in its `switch` plus representatives of the
kinds that reach its `default` branch. -/
inductive GoKind where
  | bool | int | int8 | int16 | int32 | int64
  | uint | uint8 | uint16 | uint32 | uint64
  | float32 | float64 | string
  | slice | struct_ | ptr | interface_ | map_ | other
deriving DecidableEq, Repr

/-- Go types of destination struct fields, at the granularity the source
distinguishes: the scalar types, `[]byte` versus any other slice type,
`time.Time` versus any other struct type, a type implementing `image.Image`
(an interface type), a pointer type, and representatives of the rest. -/
inductive GoType where
  | bool | int | int8 | int16 | int32 | int64
  | uint | uint8 | uint16 | uint32 | uint64
  | float32 | float64 | string
  | bytes                -- []byte
  | sliceOther           -- a slice type other than []byte
  | timeTime             -- time.Time
  | structOther          -- a struct type other than time.Time
  | imageI               -- a type implementing image.Image (interface kind)
  | ptr (elem : GoType)  -- pointer to elem
  | mapT                 -- a map type (reaches the default branch)
  | other                -- chan, func, complex, ... (default branch)
deriving DecidableEq, Repr

/-- The kind of a type, `Type.Kind()`. -/
def GoType.kind : GoType → GoKind
  | .bool => .bool
  | .int => .int
  | .int8 => .int8
  | .int16 => .int16
  | .int32 => .int32
  | .int64 => .int64
  | .uint => .uint
  | .uint8 => .uint8
  | .uint16 => .uint16
  | .uint32 => .uint32
  | .uint64 => .uint64
  | .float32 => .float32
  | .float64 => .float64
  | .string => .string
  | .bytes => .slice
  | .sliceOther => .slice
  | .timeTime => .struct_
  | .structOther => .struct_
  | .imageI => .interface_
  | .ptr _ => .ptr
  | .mapT => .map_
  | .other => .other

/-- Runtime values of destination fields.  Integer values are stored as the
mathematical integer the Go `SetInt` / `SetUint` call stores (the widths are
respected by the parse functions, which range-check before assigning).
Float values carry the exact rational produced by the modelled `ParseFloat`
(IEEE-754 rounding abstracted; no claim depends on float values). -/
inductive GoValue where
  | bool (b : Bool) : GoValue
  | int (n : Int) : GoValue
  | uint (n : Nat) : GoValue
  | float (q : Rat) : GoValue
  | string (s : String) : GoValue
  | bytes (bs : List Nat) : GoValue
  | sliceOther : GoValue
  | timeTime (t : TimeVal) : GoValue
  | structOther : GoValue
  | image (im : Option (List Nat)) : GoValue
  | ptrNil : GoValue
  | ptrTo (v : GoValue) : GoValue
  | mapV : GoValue
  | other : GoValue
deriving DecidableEq, Repr

/-- The zero value of a type (what `reflect.New(t)` points at). -/
def zeroValue : GoType → GoValue
  | .bool => .bool false
  | .int | .int8 | .int16 | .int32 | .int64 => .int 0
  | .uint | .uint8 | .uint16 | .uint32 | .uint64 => .uint 0
  | .float32 | .float64 => .float 0
  | .string => .string ""
  | .bytes => .bytes []
  | .sliceOther => .sliceOther
  | .timeTime => .timeTime ⟨"", "", ""⟩
  | .structOther => .structOther
  | .imageI => .image none
  | .ptr _ => .ptrNil
  | .mapT => .mapV
  | .other => .other

/-- One declared field of the destination struct: its name, its struct tag
(an association list of tag keys such as "form", "base", "format", "tz" to
their values, first binding wins as for `reflect.StructTag`), and its type. -/
structure StructField where
  name : String
  tags : List (String × String)
  type : GoType
deriving DecidableEq, Repr

/-- Lookup in a struct tag, `StructTag.Lookup`. -/
def tagLookup (tags : List (String × String)) (key : String) : Option String :=
  match tags.find? (fun p => p.1 == key) with
  | some p => some p.2
  | none => none

/-- Lookup in a struct tag with empty-string default, `StructTag.Get`. -/
def tagGet (tags : List (String × String)) (key : String) : String :=
  match tagLookup tags key with
  | some v => v
  | none => ""

/-- One uploaded multipart file part (`*multipart.FileHeader`), reduced to the
content its opened stream yields; opening is modelled as succeeding (an open
failure is an I/O condition outside the shallow embedding, and no claim
concerns it). -/
structure FilePart where
  content : List Nat
deriving DecidableEq, Repr

/-- The JSON body as seen by the external `encoding/json` decoder: either a
decode failure (malformed body) carrying the json error message, or the list
of (field index, value) assignments the decode performs on the destination. -/
abbrev JsonBody : Type := Except String (List (Nat × GoValue))

/-- The request, as the goform code observes it after the external request
layer has parsed it: `contentType` is `r.Header.Get("Content-Type")` (the
empty string when the header is absent); `form` is the parsed single-valued
form/query map `r.Form` as populated by `r.ParseMultipartForm` (an ordered
association of keys to their raw string values); `multipartForm` is
`r.MultipartForm` (`none` models a nil `*multipart.Form`); `body` is the JSON
view of the body. -/
structure Request where
  contentType : String
  body : JsonBody
  form : List (String × List String)
  multipartForm : Option (List (String × List FilePart))

/-- Map lookup in `r.Form` (a nil/absent entry is the empty list). -/
def formLookup (form : List (String × List String)) (key : String) : List String :=
  match form.find? (fun p => p.1 == key) with
  | some p => p.2
  | none => []

/-- Map lookup in `r.MultipartForm.File`. -/
def fileLookup (files : List (String × List FilePart)) (key : String) : List FilePart :=
  match files.find? (fun p => p.1 == key) with
  | some p => p.2
  | none => []

/-- The file parts the request holds under a key, across both the nil and the
non-nil `MultipartForm` cases. -/
def fileHeaders (r : Request) (key : String) : List FilePart :=
  match r.multipartForm with
  | none => []
  | some files => fileLookup files key

/-- The destination argument `v interface{}` of `Unmarshal`: either a pointer
to a struct (its declared fields and their current values, in declaration
order) or some non-pointer value. -/
inductive GoDest where
  | ptr (fields : List StructField) (values : List GoValue) : GoDest
  | nonPtr : GoDest
deriving DecidableEq, Repr

/-! ## strconv (external collaborator)

Model of `strconv.ParseUint`, `ParseInt`, `ParseBool` and `ParseFloat` as of
Go 1.13 (the toolchain pinned by go.mod).  Strings are iterated as their byte
values; ASCII characters coincide with code points, and any non-ASCII input
yields a syntax error both in Go (no byte of a multi-byte encoding is a valid
digit) and here (no such code point is a valid digit). -/

/-- Byte values of a Go string, `[]byte(s)` (code points; agrees with the
UTF-8 bytes on all paths the parse functions distinguish, see above). -/
def strBytes (s : String) : List Nat := s.data.map Char.toNat

/-- Go's `strconv.lower`: `c | ('x' - 'X')`. -/
def lowerB (c : Nat) : Nat := c ||| 32

/-- Largest uint64 value. -/
def maxUint64 : Nat := 2 ^ 64 - 1

/-- Digit accumulation loop of `ParseUint`: walks the digit bytes keeping the
accumulated value, the base, the cutoff and max-value checks exactly as the Go
loop does (the Go uint64 wraparound check `n1 < n` together with `n1 > maxVal`
is equivalent, over exact naturals, to `n1 > maxVal`, because `n < cutoff`
already bounds `n * base` by `maxUint64 ≥ maxVal`).  Returns the accumulated
value, whether an underscore was skipped, and the error if any; on a syntax
error the value is 0 and on a range error it is `maxVal`, as in Go. -/
def parseDigits (b : Nat) (base0 : Bool) (cutoff maxVal : Nat) :
    List Nat → Nat → Bool → Nat × Bool × Option ParseErr
  | [], n, us => (n, us, none)
  | c :: cs, n, us =>
    if c = 95 ∧ base0 then parseDigits b base0 cutoff maxVal cs n true
    else
      let d : Option Nat :=
        if 48 ≤ c ∧ c ≤ 57 then some (c - 48)
        else if 97 ≤ lowerB c ∧ lowerB c ≤ 122 then some (lowerB c - 97 + 10)
        else none
      match d with
      | none => (0, us, some .errSyntax)
      | some d =>
        if b ≤ d then (0, us, some .errSyntax)
        else if cutoff ≤ n then (maxVal, us, some .errRange)
        else if maxVal < n * b + d then (maxVal, us, some .errRange)
        else parseDigits b base0 cutoff maxVal cs (n * b + d) us

/-- Underscore-placement loop of `strconv.underscoreOK`.  `saw` encodes the
character classes of the Go code: 0 for a digit or base prefix, 1 for an
underscore, 2 for any other character, 3 for the beginning of the number. -/
def usOKLoop (hex : Bool) : List Nat → Nat → Bool
  | [], saw => saw ≠ 1
  | c :: cs, saw =>
    if (48 ≤ c ∧ c ≤ 57) ∨ (hex ∧ 97 ≤ lowerB c ∧ lowerB c ≤ 102) then usOKLoop hex cs 0
    else if c = 95 then (if saw ≠ 0 then false else usOKLoop hex cs 1)
    else if saw = 1 then false
    else usOKLoop hex cs 2

/-- Go's `strconv.underscoreOK`: underscores are allowed only as separators
between digits (the base prefix counting as a digit). -/
def underscoreOK (s : List Nat) : Bool :=
  let s1 := match s with
    | c :: cs => if c = 43 ∨ c = 45 then cs else s
    | [] => s
  match s1 with
  | z :: p :: rest =>
    if z = 48 ∧ (lowerB p = 98 ∨ lowerB p = 111 ∨ lowerB p = 120) then
      usOKLoop (lowerB p = 120) rest 0
    else usOKLoop false s1 3
  | _ => usOKLoop false s1 3

/-- Go's `strconv.ParseUint(s, base, bitSize)` over the byte values of `s`.
Returns the value together with the error, as Go does (0 on syntax errors,
the max value of the width on range errors). -/
def goParseUint (s0 : List Nat) (base bitSize : Int) : Nat × Option ParseErr :=
  if s0 = [] then (0, some .errSyntax)
  else
    let base0 := base = 0
    let resolved : Except ParseErr (Nat × List Nat) :=
      if 2 ≤ base ∧ base ≤ 36 then .ok (base.toNat, s0)
      else if base = 0 then
        match s0 with
        | 48 :: rest =>
          match rest with
          | p :: rest2 =>
            if lowerB p = 98 ∧ rest2 ≠ [] then .ok (2, rest2)
            else if lowerB p = 111 ∧ rest2 ≠ [] then .ok (8, rest2)
            else if lowerB p = 120 ∧ rest2 ≠ [] then .ok (16, rest2)
            else .ok (8, p :: rest2)
          | [] => .ok (8, [])
        | _ => .ok (10, s0)
      else .error (.errBase base)
    match resolved with
    | .error e => (0, some e)
    | .ok (b, s) =>
      if bitSize = 0 ∨ (0 < bitSize ∧ bitSize ≤ 64) then
        let bs : Nat := if bitSize = 0 then 64 else bitSize.toNat
        let cutoff := maxUint64 / b + 1
        let maxVal := 2 ^ bs - 1
        match parseDigits b base0 cutoff maxVal s 0 false with
        | (n, us, none) =>
          if us ∧ ¬ underscoreOK s0 then (0, some .errSyntax) else (n, none)
        | (n, _, some e) => (n, some e)
      else (0, some (.errBitSize bitSize))

/-- Go's `strconv.ParseInt(s, base, bitSize)`: strips an optional sign, parses
the rest with `ParseUint`, and range-checks against the signed width.  A
non-range `ParseUint` error is returned as is; the final `return n, nil` of
the Go code (which drops a pending range error when neither signed bound is
exceeded, reachable only for bit sizes outside those goform uses) is mirrored
exactly. -/
def goParseInt (s0 : List Nat) (base bitSize : Int) : Int × Option ParseErr :=
  if s0 = [] then (0, some .errSyntax)
  else
    let signed : Bool × List Nat := match s0 with
      | 43 :: rest => (false, rest)
      | 45 :: rest => (true, rest)
      | _ => (false, s0)
    let neg := signed.1
    let un := goParseUint signed.2 base bitSize
    match un.2 with
    | some e =>
      if e ≠ .errRange then (0, some e)
      else
        let bs : Nat := if bitSize = 0 then 64 else bitSize.toNat
        let cutoff := 2 ^ (bs - 1)
        if ¬neg ∧ cutoff ≤ un.1 then ((cutoff : Int) - 1, some .errRange)
        else if neg ∧ cutoff < un.1 then (-(cutoff : Int), some .errRange)
        else (if neg then -(un.1 : Int) else (un.1 : Int), none)
    | none =>
      let bs : Nat := if bitSize = 0 then 64 else bitSize.toNat
      let cutoff := 2 ^ (bs - 1)
      if ¬neg ∧ cutoff ≤ un.1 then ((cutoff : Int) - 1, some .errRange)
      else if neg ∧ cutoff < un.1 then (-(cutoff : Int), some .errRange)
      else (if neg then -(un.1 : Int) else (un.1 : Int), none)

/-- Go's `strconv.ParseBool`: accepts exactly the listed spellings. -/
def goParseBool (s : String) : Except ParseErr Bool :=
  if s = "1" ∨ s = "t" ∨ s = "T" ∨ s = "true" ∨ s = "TRUE" ∨ s = "True" then .ok true
  else if s = "0" ∨ s = "f" ∨ s = "F" ∨ s = "false" ∨ s = "FALSE" ∨ s = "False" then .ok false
  else .error .errSyntax

/-- Value of a list of decimal digit characters. -/
def digitsVal (ds : List Char) : Nat := ds.foldl (fun n c => n * 10 + (c.toNat - 48)) 0

/-- Modelled from the documented behaviour of the external
`strconv.ParseFloat`: accepts an optional sign, decimal digits with an
optional fractional part and an optional decimal exponent, and yields the
exact rational value of the literal.  The IEEE-754 rounding to the requested
width, and the special forms (inf, nan, hexadecimal floats, underscores), are
abstracted away: no claim settled here depends on float values. -/
def goParseFloat (s : String) (bitSize : Nat) : Except ParseErr Rat :=
  let cs := s.data
  let signed : Bool × List Char := match cs with
    | '+' :: rest => (false, rest)
    | '-' :: rest => (true, rest)
    | _ => (false, cs)
  let ip := signed.2.takeWhile Char.isDigit
  let r1 := signed.2.dropWhile Char.isDigit
  let fpr : List Char × List Char := match r1 with
    | '.' :: rest => (rest.takeWhile Char.isDigit, rest.dropWhile Char.isDigit)
    | _ => ([], r1)
  let fp := fpr.1
  if ip = [] ∧ fp = [] then .error .errSyntax
  else
    let expr : Option Int × List Char := match fpr.2 with
      | [] => (some 0, [])
      | e :: rest =>
        if e = 'e' ∨ e = 'E' then
          let esigned : Bool × List Char := match rest with
            | '+' :: rest2 => (false, rest2)
            | '-' :: rest2 => (true, rest2)
            | _ => (false, rest)
          let eds := esigned.2.takeWhile Char.isDigit
          if eds = [] ∨ esigned.2.dropWhile Char.isDigit ≠ [] then (none, [])
          else (some (if esigned.1 then -(digitsVal eds : Int) else (digitsVal eds : Int)), [])
        else (none, e :: rest)
    match expr.1 with
    | none => .error .errSyntax
    | some ex =>
      let mag : Rat := ((digitsVal ip : Rat) + (digitsVal fp : Rat) / (10 : Rat) ^ fp.length)
        * (10 : Rat) ^ ex
      let _ := bitSize
      .ok (if signed.1 then -mag else mag)

/-! ## mime (external collaborator)

Model of `mime.ParseMediaType` as used by `Unmarshal`: the caller keeps only
the media type and the error, so the parameter map itself is not produced. -/

/-- Whitespace per `unicode.IsSpace` restricted to the code points that occur
in Latin-1 (the ones `strings.TrimSpace` can strip from a header value). -/
def isGoSpace (c : Char) : Bool :=
  c = ' ' ∨ c = '\t' ∨ c = '\n' ∨ c.toNat = 11 ∨ c.toNat = 12 ∨ c = '\r'
    ∨ c.toNat = 133 ∨ c.toNat = 160

/-- Go's `strings.TrimSpace` on a character list. -/
def goTrim (cs : List Char) : List Char :=
  ((cs.dropWhile isGoSpace).reverse.dropWhile isGoSpace).reverse

/-- Go's `strings.Split` for a single-character separator (never returns an
empty list; splitting the empty string yields one empty piece). -/
def splitChar (sep : Char) : List Char → List (List Char)
  | [] => [[]]
  | c :: cs =>
    if c = sep then [] :: splitChar sep cs
    else
      match splitChar sep cs with
      | g :: gs => (c :: g) :: gs
      | [] => [[c]]

/-- Token characters of RFC 1521 as `mime.isTokenChar` defines them. -/
def isTokenChar (c : Char) : Bool :=
  32 < c.toNat ∧ c.toNat < 127 ∧
    ¬ (c ∈ ['(', ')', '<', '>', '@', ',', ';', ':', '\\', '"', '/', '[', ']', '?', '='])

/-- Go's `mime.checkMediaTypeDisposition`: a token, optionally followed by a
slash and a second token, and nothing else. -/
def checkMediaTypeDisposition (s : List Char) : Option GoErr :=
  let typ := s.takeWhile isTokenChar
  let rest := s.dropWhile isTokenChar
  if typ = [] then some (.msg "mime: no media type")
  else
    match rest with
    | [] => none
    | '/' :: rest1 =>
      let subtype := rest1.takeWhile isTokenChar
      let rest2 := rest1.dropWhile isTokenChar
      if subtype = [] then some (.msg "mime: expected token after slash")
      else if rest2 ≠ [] then some (.msg "mime: unexpected content after media subtype")
      else none
    | _ => some (.msg "mime: expected slash after first token")

/-- Whether a parameter value is a well-formed quoted-string. -/
def quotedOK (val : List Char) : Bool :=
  match val with
  | '"' :: rest => rest ≠ [] ∧ rest.getLast? = some '"' ∧ (rest.dropLast.all (fun c => c ≠ '"'))
  | _ => false

/-- Modelled from the documented contract of the parameter section of the
external `mime.ParseMediaType` (everything after the first ";"): each
";"-separated segment, after trimming, must be empty (covering trailing
semicolons) or an `attribute=value` pair with a token attribute and a token
or quoted-string value; anything else makes `ParseMediaType` return an error
alongside the media type, which `Unmarshal` treats as fatal.  The exact Go
scanner (RFC 2231 continuations, percent decoding) only affects the parameter
map, which `Unmarshal` discards, and the precise error value, which no claim
distinguishes. -/
def checkParams (s : List Char) : Option GoErr :=
  if (splitChar ';' s).all (fun seg =>
      let t := goTrim seg
      t.isEmpty ||
        (let attr := t.takeWhile (fun c => c ≠ '=')
         let rest := t.dropWhile (fun c => c ≠ '=')
         match rest with
         | '=' :: val => (!attr.isEmpty) && attr.all isTokenChar && (val.all isTokenChar || quotedOK val)
         | _ => false)) then
    none
  else some (.msg "mime: invalid media parameter")

/-- Go's `mime.ParseMediaType`, reduced to the `(mediatype, err)` view that
`Unmarshal` consumes: the part before the first ";" is trimmed, lowercased and
checked as a media type, then the parameter section is checked. -/
def parseMediaType (v : String) : Except GoErr String :=
  let cs := v.data
  let base := cs.takeWhile (fun c => c ≠ ';')
  let rest := cs.dropWhile (fun c => c ≠ ';')
  let mediatype := (goTrim base).map Char.toLower
  match checkMediaTypeDisposition mediatype with
  | some e => .error e
  | none =>
    match checkParams rest with
    | some e => .error e
    | none => .ok (String.mk mediatype)

/-! ## encoding/base64 (external collaborator)

Model of reading a stream through `base64.NewDecoder(base64.StdEncoding, r)`
to completion: the standard alphabet, "=" padding, and the decoder's
documented skipping of carriage returns and newlines.  Error values are
collapsed to messages; no claim distinguishes them. -/

/-- Decimal value of one standard-alphabet base64 digit byte. -/
def sextet (c : Nat) : Option Nat :=
  if 65 ≤ c ∧ c ≤ 90 then some (c - 65)
  else if 97 ≤ c ∧ c ≤ 122 then some (c - 97 + 26)
  else if 48 ≤ c ∧ c ≤ 57 then some (c - 48 + 52)
  else if c = 43 then some 62
  else if c = 47 then some 63
  else none

/-- Standard-alphabet base64 digit byte of a value below 64. -/
def sextetChar (n : Nat) : Nat :=
  if n < 26 then 65 + n
  else if n < 52 then 97 + (n - 26)
  else if n < 62 then 48 + (n - 52)
  else if n = 62 then 43
  else 47

/-- Standard base64 encoding with padding, `base64.StdEncoding`, three input
bytes to four output digits. -/
def b64EncodeStd : List Nat → List Nat
  | b0 :: b1 :: b2 :: rest =>
    sextetChar (b0 / 4) :: sextetChar (b0 % 4 * 16 + b1 / 16) ::
      sextetChar (b1 % 16 * 4 + b2 / 64) :: sextetChar (b2 % 64) :: b64EncodeStd rest
  | [b0, b1] => [sextetChar (b0 / 4), sextetChar (b0 % 4 * 16 + b1 / 16), sextetChar (b1 % 16 * 4), 61]
  | [b0] => [sextetChar (b0 / 4), sextetChar (b0 % 4 * 16), 61, 61]
  | [] => []

/-- Group loop of the base64 stream decoder: four digits to three bytes, with
"=" padding allowed only in the final group (data after a padded group, a
partial trailing group, or a byte outside the alphabet is corrupt input; the
default, non-strict decoder ignores non-zero trailing padding bits). -/
def b64DecodeGroups : List Nat → Except GoErr (List Nat)
  | [] => .ok []
  | a :: b :: c :: d :: rest =>
    match sextet a, sextet b with
    | some sa, some sb =>
      if d = 61 then
        if rest ≠ [] then .error (.msg "illegal base64 data")
        else if c = 61 then .ok [sa * 4 + sb / 16]
        else
          match sextet c with
          | some sc => .ok [sa * 4 + sb / 16, sb % 16 * 16 + sc / 4]
          | none => .error (.msg "illegal base64 data")
      else
        match sextet c, sextet d with
        | some sc, some sd =>
          match b64DecodeGroups rest with
          | .ok tail => .ok ((sa * 4 + sb / 16) :: (sb % 16 * 16 + sc / 4) :: (sc % 4 * 64 + sd) :: tail)
          | .error e => .error e
        | _, _ => .error (.msg "illegal base64 data")
    | _, _ => .error (.msg "illegal base64 data")
  | _ => .error (.msg "unexpected EOF")

/-- Reading a whole stream through the standard base64 decoder: carriage
returns and newlines are skipped, then the digit groups are decoded. -/
def b64DecodeStd (input : List Nat) : Except GoErr (List Nat) :=
  b64DecodeGroups (input.filter (fun c => ¬ (c = 13 ∨ c = 10)))

/-! ## time and image (external collaborators) -/

/-- Modelled from the spec: the external `time.LoadLocation`.  Resolving a
zone name fails with a zone error when the identifier is unknown; the set of
installed IANA zones is a platform property, modelled here as the two names
the `time` package guarantees.  No claim concerns time decoding. -/
def goLoadLocation (name : String) : Except GoErr String :=
  if name = "UTC" ∨ name = "Local" then .ok name
  else .error (.timeError ("unknown time zone " ++ name))

/-- Modelled from the spec: the external `time.Parse` / `time.ParseInLocation`.
Layout matching is abstracted: the parse is recorded as the layout, raw value
and zone that produced it.  No claim concerns time decoding. -/
def goTimeParse (layout value zone : String) : Except GoErr TimeVal :=
  .ok ⟨layout, value, zone⟩

/-- Layout constant `time.RFC3339`. -/
def rfc3339 : String := "2006-01-02T15:04:05Z07:00"

/-- Modelled from the spec: the external `image.Decode` facility, which sniffs
the stream against the registered codecs and fails on unrecognized data.
Codec sniffing is abstracted to the PNG signature; the decoded image is
represented by the byte stream.  No claim concerns image decoding. -/
def goImageDecode (bs : List Nat) : Except GoErr (List Nat) :=
  if bs.take 8 = [137, 80, 78, 71, 13, 10, 26, 10] then .ok bs
  else .error (.msg "image: unknown format")

/-! ## tag.go -/

/-- Tag parser from `tag.go`: splits the annotation on commas; the first
segment is the key, the remaining segments set the recognized option flags
("base64", "required"), unknown options being ignored.  `strings.Split` never
returns an empty slice, so the Go `len(split) > 0` branch is always taken. -/
def parseTag (tag : String) : String × flags :=
  let split := (splitChar ',' tag.data).map (fun cs => String.mk cs)
  let f := (split.tail).foldl
    (fun f option =>
      if option = "base64" then ⟨true, f.required⟩
      else if option = "required" then ⟨f.base64, true⟩
      else f)
    ⟨false, false⟩
  (split.headD "", f)

/-- Numeric-base annotation reader from `tag.go` (`func base`): defaults to
10; a present "base" tag must parse as a base-10 32-bit integer, otherwise
the error "invalid int base" is returned. -/
def base (tag : List (String × String)) : Except GoErr Int :=
  match tagLookup tag "base" with
  | none => .ok 10
  | some baseStr =>
    match goParseInt (strBytes baseStr) 10 32 with
    | (_, some _) => .error (.msg "invalid int base")
    | (b, none) => .ok b

/-! ## unmarshal.go: the scalar decoders -/

/-- Renders a strconv failure as the `*NumError` the decoder returns. -/
def numErr (fn value : String) (e : ParseErr) : GoErr := .numError fn value e

/-- `decodeBool` from `unmarshal.go`: `strconv.ParseBool` then `SetBool`. -/
def decodeBool (valf : GoValue) (value : String) : Except GoErr GoValue :=
  match goParseBool value with
  | .error e => .error (numErr "ParseBool" value e)
  | .ok b =>
    let _ := valf
    .ok (.bool b)

/-- `decodeFloat` from `unmarshal.go`: `strconv.ParseFloat` then `SetFloat`. -/
def decodeFloat (valf : GoValue) (bitSize : Nat) (value : String) : Except GoErr GoValue :=
  match goParseFloat value bitSize with
  | .error e => .error (numErr "ParseFloat" value e)
  | .ok q =>
    let _ := valf
    .ok (.float q)

/-- `decodeInt` from `unmarshal.go`: reads the "base" annotation, parses the
value with `strconv.ParseInt` in that base at the given bit size, and assigns
with `SetInt` on success. -/
def decodeInt (valf : GoValue) (tag : List (String × String)) (bitSize : Int) (value : String) :
    Except GoErr GoValue :=
  match base tag with
  | .error e => .error e
  | .ok b =>
    match goParseInt (strBytes value) b bitSize with
    | (_, some e) => .error (numErr "ParseInt" value e)
    | (n, none) =>
      let _ := valf
      .ok (.int n)

/-- `decodeUint` from `unmarshal.go`: reads the "base" annotation, parses the
value with `strconv.ParseUint` in that base at the given bit size, and
assigns with `SetUint` on success. -/
def decodeUint (valf : GoValue) (tag : List (String × String)) (bitSize : Int) (value : String) :
    Except GoErr GoValue :=
  match base tag with
  | .error e => .error e
  | .ok b =>
    match goParseUint (strBytes value) b bitSize with
    | (_, some e) => .error (numErr "ParseUint" value e)
    | (n, none) =>
      let _ := valf
      .ok (.uint n)

/-- `decodeStruct` from `unmarshal.go`: only `time.Time` destinations are
handled (layout from the "format" tag, defaulting to RFC3339; optional zone
from the "tz" tag, resolved before parsing); any other struct type fails with
the unsupported-destination error. -/
def decodeStruct (valf : GoValue) (f : StructField) (formValue : String) : Except GoErr GoValue :=
  match valf with
  | .timeTime _ =>
    let format0 := tagGet f.tags "format"
    let format := if format0 = "" then rfc3339 else format0
    let tz := tagGet f.tags "tz"
    if tz = "" then
      match goTimeParse format formValue "" with
      | .error e => .error e
      | .ok t => .ok (.timeTime t)
    else
      match goLoadLocation tz with
      | .error e => .error e
      | .ok loc =>
        match goTimeParse format formValue loc with
        | .error e => .error e
        | .ok t => .ok (.timeTime t)
  | _ => .error (.msg "goform: invalid destination type")

/-- `decodeFormValue` from `unmarshal.go`: the kind switch.  A slice
destination is written only when its concrete type is `[]byte` (any other
slice type falls through the `break` with no error and no write); strings are
assigned directly; the scalar kinds dispatch to their decoders; struct kinds
go to `decodeStruct`; every other kind hits the `default` branch and fails
with the unsupported-destination error. -/
def decodeFormValue (valf : GoValue) (kind : GoKind) (f : StructField) (formValue : String) :
    Except GoErr GoValue :=
  match kind with
  | .slice =>
    match valf with
    | .bytes _ => .ok (.bytes (strBytes formValue))
    | _ => .ok valf
  | .string => .ok (.string formValue)
  | .bool => decodeBool valf formValue
  | .int => decodeInt valf f.tags 0 formValue
  | .int8 => decodeInt valf f.tags 8 formValue
  | .int16 => decodeInt valf f.tags 16 formValue
  | .int32 => decodeInt valf f.tags 32 formValue
  | .int64 => decodeInt valf f.tags 64 formValue
  | .uint => decodeUint valf f.tags 0 formValue
  | .uint8 => decodeUint valf f.tags 8 formValue
  | .uint16 => decodeUint valf f.tags 16 formValue
  | .uint32 => decodeUint valf f.tags 32 formValue
  | .uint64 => decodeUint valf f.tags 64 formValue
  | .float32 => decodeFloat valf 32 formValue
  | .float64 => decodeFloat valf 64 formValue
  | .struct_ => decodeStruct valf f formValue
  | _ => .error (.msg "goform: invalid destination type")

/-! ## unmarshal.go: the multipart path -/

/-- Reading the opened part stream to completion, through the base64 filter
when the flag is set (`rdr = base64.NewDecoder(base64.StdEncoding, rdr)`). -/
def readAllPart (useB64 : Bool) (content : List Nat) : Except GoErr (List Nat) :=
  if useB64 then b64DecodeStd content else .ok content

/-- `decodeMultipartFile` from `unmarshal.go`: opens the part (modelled as
yielding its content), optionally wraps the stream in the base64 decoder,
then: a `[]byte` destination receives the bytes read to completion; a
destination implementing `image.Image` receives the decoded image; any other
destination is silently left untouched. -/
def decodeMultipartFile (valf : GoValue) (kind : GoKind) (tagOptions : flags) (hdr : FilePart) :
    Except GoErr GoValue :=
  let _ := kind
  match valf with
  | .bytes _ =>
    match readAllPart tagOptions.base64 hdr.content with
    | .error e => .error e
    | .ok readData => .ok (.bytes readData)
  | .image _ =>
    match readAllPart tagOptions.base64 hdr.content with
    | .error e => .error e
    | .ok stream =>
      match goImageDecode stream with
      | .error e => .error e
      | .ok img => .ok (.image (some img))
  | _ => .ok valf

/-- `decodeMultipart` from `unmarshal.go`: when the request has a multipart
form, look up the file parts under the tag; with none (or with no multipart
form at all), a required field fails naming its key and a non-required field
is left as is; otherwise the first part is decoded. -/
def decodeMultipart (r : Request) (tag : String) (valf : GoValue) (kind : GoKind)
    (tagOptions : flags) : Except GoErr GoValue :=
  match r.multipartForm with
  | some files =>
    match fileLookup files tag with
    | [] =>
      if tagOptions.required then
        .error (.msg ("goform: missing required field [" ++ tag ++ "]"))
      else .ok valf
    | hdr :: _ => decodeMultipartFile valf kind tagOptions hdr
  | none =>
    if tagOptions.required then
      .error (.msg ("goform: missing required field [" ++ tag ++ "]"))
    else .ok valf

/-! ## unmarshal.go: the field loop -/

/-- Body of the per-field branch of `Unmarshal`'s loop after the tag has been
resolved and any pointer has been unwrapped: reads the form values under the
tag, rejects more than one, falls through to the multipart path on zero, and
dispatches the single value to `decodeFormValue` otherwise. -/
def bindValue (r : Request) (tag : String) (tagOptions : flags) (f : StructField)
    (kind : GoKind) (valf : GoValue) : Except GoErr GoValue :=
  let formValues := formLookup r.form tag
  if formValues.length > 1 then .error (.msg "goform: arrays not supported yet")
  else
    match formValues with
    | [] => decodeMultipart r tag valf kind tagOptions
    | formValue :: _ => decodeFormValue valf kind f formValue

/-- `Type.Elem()` for pointer types (identity elsewhere; Go would panic,
and `Unmarshal` only calls it under the pointer-kind test). -/
def elemType : GoType → GoType
  | .ptr e => e
  | t => t

/-- One iteration of `Unmarshal`'s field loop, as a function from the field's
current value to its new value paired with the error, mirroring that the Go
code mutates the field in place: the `form` tag is parsed and empty/"-" keys
are skipped; a pointer-typed field (`kind == reflect.Ptr`) has its pointee
allocated (`valf.Set(reflect.New(f.Type.Elem()))`) and unwrapped *before* the
form lookup, so the allocation survives even when the subsequent steps fail
or write nothing; the inner decoders only write on success, so on failure a
non-pointer field keeps its old value and a pointer field keeps the fresh
zero pointee. -/
def processField (r : Request) (f : StructField) (v : GoValue) : GoValue × Option GoErr :=
  let tagged := parseTag (tagGet f.tags "form")
  let tag := tagged.1
  let tagOptions := tagged.2
  if tag = "" ∨ tag = "-" then (v, none)
  else
    let isPtr := f.type.kind = GoKind.ptr
    let kind := if isPtr then (elemType f.type).kind else f.type.kind
    let valf := if isPtr then zeroValue (elemType f.type) else v
    match bindValue r tag tagOptions f kind valf with
    | .ok v1 => (if isPtr then .ptrTo v1 else v1, none)
    | .error e => (if isPtr then .ptrTo valf else v, some e)

/-- The value a non-skipped field holds right after the pointer-allocation
step of the loop body and before any decode touches it: a pointer field now
points at a zero pointee, any other field still holds its previous value. -/
def allocIfPtr (f : StructField) (v : GoValue) : GoValue :=
  if f.type.kind = GoKind.ptr then .ptrTo (zeroValue (elemType f.type)) else v

/-- The field loop of `Unmarshal` over the declared fields and their current
values (the two lists have equal length for a real struct; `FieldByName`
resolves the same field the index does, Go struct field names being unique).
The first failing field aborts the loop; fields already processed keep their
new values, the failing field keeps whatever `processField` left in it, and
the fields after it are untouched. -/
def bindLoop (r : Request) : List StructField → List GoValue → List GoValue × Option GoErr
  | [], vs => (vs, none)
  | _ :: _, [] => ([], none)
  | f :: fs, v :: vs =>
    match processField r f v with
    | (v1, none) => ((bindLoop r fs vs).1.cons v1, (bindLoop r fs vs).2)
    | (v1, some e) => (v1 :: vs, some e)

/-! ## unmarshal.go: Unmarshal -/

/-- Writes one JSON field assignment into the value list. -/
def listSet (vs : List GoValue) (i : Nat) (v : GoValue) : List GoValue := vs.set i v

/-- Modelled from the documented behaviour of the external
`json.NewDecoder(r.Body).Decode(v)`.  A malformed body fails with the json
decoder's own error before the destination is examined; decoding into a
non-pointer destination fails with the json invalid-unmarshal error; into a
pointer destination the decoded field assignments are applied. -/
def jsonDecode (body : JsonBody) (v : GoDest) : GoDest × Option GoErr :=
  match body with
  | .error e => (v, some (.jsonError e))
  | .ok updates =>
    match v with
    | .nonPtr => (v, some (.jsonError "json: Unmarshal(non-pointer value)"))
    | .ptr fields values =>
      (.ptr fields (updates.foldl (fun vs u => listSet vs u.1 u.2) values), none)

/-- The JSON step of `Unmarshal`: run the external JSON decode only when the
media type is "application/json". -/
def jsonStep (r : Request) (mediaType : String) (v : GoDest) : GoDest × Option GoErr :=
  if mediaType = "application/json" then jsonDecode r.body v else (v, none)

/-- `Unmarshal` from `unmarshal.go`, as a function from the request and the
initial destination to the final destination state paired with the returned
error (the Go function mutates `v` through reflection and returns only the
error): parse the Content-Type, run the JSON decoder when the media type is
JSON, reject non-pointer destinations, then run the field loop
(`r.ParseMultipartForm` is modelled by the request already carrying its
parsed `form` and `multipartForm`, its error being discarded by the Go
code). -/
def Unmarshal (r : Request) (v : GoDest) : GoDest × Option GoErr :=
  match parseMediaType r.contentType with
  | .error e => (v, some e)
  | .ok mediaType =>
    match jsonStep r mediaType v with
    | (v1, some e) => (v1, some e)
    | (v1, none) =>
      match v1 with
      | .nonPtr => (v1, some (.msg "goform: v must be a pointer"))
      | .ptr fields values =>
        ((GoDest.ptr fields (bindLoop r fields values).1), (bindLoop r fields values).2)

/-- What `decodeInt` does with a `strconv.ParseInt` outcome: wrap a failure
as the returned `*NumError`, assign the parsed integer otherwise. -/
def intResult (value : String) : Int × Option ParseErr → Except GoErr GoValue
  | (_, some e) => .error (numErr "ParseInt" value e)
  | (n, none) => .ok (.int n)

/-- What `decodeUint` does with a `strconv.ParseUint` outcome. -/
def uintResult (value : String) : Nat × Option ParseErr → Except GoErr GoValue
  | (_, some e) => .error (numErr "ParseUint" value e)
  | (n, none) => .ok (.uint n)

/-- The inner value the loop body hands to the decoders after the pointer
step: the fresh zero pointee for a pointer field, the field's own value
otherwise. -/
def allocStart (f : StructField) (v : GoValue) : GoValue :=
  if f.type.kind = GoKind.ptr then zeroValue (elemType f.type) else v

/-- The effective kind of a field: its own kind, or its element's kind after
unwrapping one pointer (`kind = f.Type.Elem().Kind()`). -/
def effKind (f : StructField) : GoKind :=
  if f.type.kind = GoKind.ptr then (elemType f.type).kind else f.type.kind

/-! ## Shared lemmas about the field loop -/

/-- Unfolding of the loop body for a non-skipped field whose decode succeeds:
the decoders run on the pointer-adjusted value at the effective kind, and a
pointer field is re-wrapped on the way out. -/
theorem processField_ok (r : Request) (f : StructField) (v : GoValue) (tag : String)
    (opts : flags) (v1 : GoValue) (htag : parseTag (tagGet f.tags "form") = (tag, opts))
    (h1 : tag ≠ "") (h2 : tag ≠ "-")
    (hb : bindValue r tag opts f (effKind f) (allocStart f v) = .ok v1) :
    processField r f v = ((if f.type.kind = GoKind.ptr then .ptrTo v1 else v1), none) := by
  have hno : ¬ (tag = "" ∨ tag = "-") := not_or.mpr ⟨h1, h2⟩
  unfold effKind allocStart at hb
  simp only [processField, htag, hno, if_false]
  rw [hb]

/-- Unfolding of the loop body for a non-skipped field whose decode fails: the
error is reported and the field is left with whatever the allocation step gave
it (its old value, or a zero pointee for a pointer field). -/
theorem processField_err (r : Request) (f : StructField) (v : GoValue) (tag : String)
    (opts : flags) (e : GoErr) (htag : parseTag (tagGet f.tags "form") = (tag, opts))
    (h1 : tag ≠ "") (h2 : tag ≠ "-")
    (hb : bindValue r tag opts f (effKind f) (allocStart f v) = .error e) :
    processField r f v = (allocIfPtr f v, some e) := by
  have hno : ¬ (tag = "" ∨ tag = "-") := not_or.mpr ⟨h1, h2⟩
  unfold effKind allocStart at hb
  simp only [processField, htag, hno, if_false]
  rw [hb]
  unfold allocIfPtr
  by_cases hp : f.type.kind = GoKind.ptr <;> simp [hp]

/-- A failing field aborts the loop immediately, leaving the tail untouched. -/
theorem bindLoop_cons_err (r : Request) (f : StructField) (fs : List StructField)
    (v v1 : GoValue) (vs : List GoValue) (e : GoErr)
    (h : processField r f v = (v1, some e)) :
    bindLoop r (f :: fs) (v :: vs) = (v1 :: vs, some e) := by
  simp [bindLoop, h]

/-- A succeeding field hands control to the rest of the loop. -/
theorem bindLoop_cons_ok (r : Request) (f : StructField) (fs : List StructField)
    (v v1 : GoValue) (vs : List GoValue)
    (h : processField r f v = (v1, none)) :
    bindLoop r (f :: fs) (v :: vs) = (v1 :: (bindLoop r fs vs).1, (bindLoop r fs vs).2) := by
  simp [bindLoop, h]

/-- With no form value under the tag, the loop body takes the multipart path. -/
theorem bindValue_noForm (r : Request) (tag : String) (opts : flags) (f : StructField)
    (kind : GoKind) (valf : GoValue) (hform : formLookup r.form tag = []) :
    bindValue r tag opts f kind valf = decodeMultipart r tag valf kind opts := by
  simp [bindValue, hform]

/-- With more than one form value under the tag, the loop body fails with the
array-unsupported error before looking at the field at all. -/
theorem bindValue_multi (r : Request) (tag : String) (opts : flags) (f : StructField)
    (kind : GoKind) (valf : GoValue) (hform : (formLookup r.form tag).length > 1) :
    bindValue r tag opts f kind valf = .error (.msg "goform: arrays not supported yet") := by
  simp [bindValue, hform]

/-- With no file part under the tag either (including a nil multipart form),
the multipart path only evaluates the required flag. -/
theorem decodeMultipart_noFiles (r : Request) (tag : String) (valf : GoValue) (kind : GoKind)
    (opts : flags) (h : fileHeaders r tag = []) :
    decodeMultipart r tag valf kind opts =
      if opts.required then .error (.msg ("goform: missing required field [" ++ tag ++ "]"))
      else .ok valf := by
  cases hm : r.multipartForm with
  | none => simp [decodeMultipart, hm]
  | some files =>
    have h2 : fileLookup files tag = [] := by simpa [fileHeaders, hm] using h
    simp [decodeMultipart, hm, h2]

/-- With at least one file part under the tag, the multipart path decodes the
first part and ignores the rest. -/
theorem decodeMultipart_file (r : Request) (tag : String) (valf : GoValue) (kind : GoKind)
    (opts : flags) (p : FilePart) (ps : List FilePart) (h : fileHeaders r tag = p :: ps) :
    decodeMultipart r tag valf kind opts = decodeMultipartFile valf kind opts p := by
  cases hm : r.multipartForm with
  | none => simp [fileHeaders, hm] at h
  | some files =>
    have h2 : fileLookup files tag = p :: ps := by simpa [fileHeaders, hm] using h
    simp [decodeMultipart, hm, h2]

/-- The field loop never changes the number of field values. -/
theorem bindLoop_length (r : Request) :
    ∀ (fs : List StructField) (vs : List GoValue), (bindLoop r fs vs).1.length = vs.length := by
  intro fs
  induction fs with
  | nil => intro vs; rfl
  | cons f fs ih =>
    intro vs
    cases vs with
    | nil => rfl
    | cons v vs =>
      rcases h : processField r f v with ⟨v1, e?⟩
      cases e? with
      | none => simp [bindLoop, h, ih]
      | some e => simp [bindLoop, h]

/-- Splitting the field loop after a prefix that runs without error: the loop
on the concatenation runs the prefix first and then continues on the rest,
and the values produced for the prefix are final. -/
theorem bindLoop_append_ok (r : Request) :
    ∀ (fs1 : List StructField) (vs1 : List GoValue) (fs2 : List StructField)
      (vs2 : List GoValue),
      fs1.length = vs1.length → (bindLoop r fs1 vs1).2 = none →
      bindLoop r (fs1 ++ fs2) (vs1 ++ vs2)
        = ((bindLoop r fs1 vs1).1 ++ (bindLoop r fs2 vs2).1, (bindLoop r fs2 vs2).2) := by
  intro fs1
  induction fs1 with
  | nil =>
    intro vs1 fs2 vs2 hlen _
    have : vs1 = [] := by
      cases vs1 with
      | nil => rfl
      | cons v vs => simp at hlen
    subst this
    simp [bindLoop]
  | cons f fs ih =>
    intro vs1 fs2 vs2 hlen hok
    cases vs1 with
    | nil => simp at hlen
    | cons v vs =>
      rcases h : processField r f v with ⟨v1, e?⟩
      cases e? with
      | none =>
        have hok2 : (bindLoop r fs vs).2 = none := by
          simpa [bindLoop, h] using hok
        have hlen2 : fs.length = vs.length := by simpa using hlen
        simp [bindLoop, h, ih vs fs2 vs2 hlen2 hok2]
      | some e =>
        exfalso
        simp [bindLoop, h] at hok

/-! ## Shared lemmas about the base64 model -/

/-- Every standard base64 digit byte is at least "+" (43); in particular none
is a carriage return or newline. -/
theorem sextetChar_ge (n : Nat) : 43 ≤ sextetChar n := by
  unfold sextetChar
  split_ifs <;> omega

/-- Decoding a digit byte recovers the sextet that produced it. -/
theorem sextet_sextetChar : ∀ n, n < 64 → sextet (sextetChar n) = some n := by decide

/-- No digit byte is the padding byte "=". -/
theorem sextetChar_ne61 : ∀ n, n < 64 → sextetChar n ≠ 61 := by decide

/-- Every byte of an encoded stream is at least 43 (digit bytes by
`sextetChar_ge`, padding is 61). -/
theorem b64EncodeStd_mem_ge : ∀ (bs : List Nat), ∀ c ∈ b64EncodeStd bs, 43 ≤ c
  | [] => by intro c hc; simp [b64EncodeStd] at hc
  | [b0] => by
    intro c hc
    simp only [b64EncodeStd, List.mem_cons, List.mem_singleton] at hc
    rcases hc with rfl | rfl | rfl | rfl | h
    · exact sextetChar_ge _
    · exact sextetChar_ge _
    · omega
    · omega
    · simp at h
  | [b0, b1] => by
    intro c hc
    simp only [b64EncodeStd, List.mem_cons, List.mem_singleton] at hc
    rcases hc with rfl | rfl | rfl | rfl | h
    · exact sextetChar_ge _
    · exact sextetChar_ge _
    · exact sextetChar_ge _
    · omega
    · simp at h
  | b0 :: b1 :: b2 :: (rest1 :: rest2) => by
    intro c hc
    simp only [b64EncodeStd, List.mem_cons] at hc
    rcases hc with rfl | rfl | rfl | rfl | h
    · exact sextetChar_ge _
    · exact sextetChar_ge _
    · exact sextetChar_ge _
    · exact sextetChar_ge _
    · exact b64EncodeStd_mem_ge (rest1 :: rest2) c h
  | [b0, b1, b2] => by
    intro c hc
    simp only [b64EncodeStd, List.mem_cons] at hc
    rcases hc with rfl | rfl | rfl | rfl | h
    · exact sextetChar_ge _
    · exact sextetChar_ge _
    · exact sextetChar_ge _
    · exact sextetChar_ge _
    · simp [b64EncodeStd] at h

/-- The stream decoder's skipping of carriage returns and newlines does not
touch an encoded stream. -/
theorem b64EncodeStd_filter (bs : List Nat) :
    (b64EncodeStd bs).filter (fun c => ¬ (c = 13 ∨ c = 10)) = b64EncodeStd bs := by
  apply List.filter_eq_self.mpr
  intro c hc
  have := b64EncodeStd_mem_ge bs c hc
  simp only [decide_eq_true_eq]
  omega

/-- Decoding an encoded byte list (of genuine bytes) recovers it. -/
theorem b64DecodeGroups_encode :
    ∀ (bs : List Nat), (∀ b ∈ bs, b < 256) → b64DecodeGroups (b64EncodeStd bs) = .ok bs
  | [] => by intro _; rfl
  | [b0] => by
    intro h
    have hb0 : b0 < 256 := h b0 (by simp)
    have h1 : sextet (sextetChar (b0 / 4)) = some (b0 / 4) := sextet_sextetChar _ (by omega)
    have h2 : sextet (sextetChar (b0 % 4 * 16)) = some (b0 % 4 * 16) :=
      sextet_sextetChar _ (by omega)
    simp only [b64EncodeStd, b64DecodeGroups, h1, h2]
    simp
    all_goals omega
  | [b0, b1] => by
    intro h
    have hb0 : b0 < 256 := h b0 (by simp)
    have hb1 : b1 < 256 := h b1 (by simp)
    have h1 : sextet (sextetChar (b0 / 4)) = some (b0 / 4) := sextet_sextetChar _ (by omega)
    have h2 : sextet (sextetChar (b0 % 4 * 16 + b1 / 16)) = some (b0 % 4 * 16 + b1 / 16) :=
      sextet_sextetChar _ (by omega)
    have h3 : sextet (sextetChar (b1 % 16 * 4)) = some (b1 % 16 * 4) :=
      sextet_sextetChar _ (by omega)
    have hne : sextetChar (b1 % 16 * 4) ≠ 61 := sextetChar_ne61 _ (by omega)
    simp only [b64EncodeStd, b64DecodeGroups, h1, h2, h3]
    simp [hne]
    all_goals omega
  | b0 :: b1 :: b2 :: rest => by
    intro h
    have hb0 : b0 < 256 := h b0 (by simp)
    have hb1 : b1 < 256 := h b1 (by simp)
    have hb2 : b2 < 256 := h b2 (by simp)
    have ih := b64DecodeGroups_encode rest (fun b hb => h b (by simp [hb]))
    have h1 : sextet (sextetChar (b0 / 4)) = some (b0 / 4) := sextet_sextetChar _ (by omega)
    have h2 : sextet (sextetChar (b0 % 4 * 16 + b1 / 16)) = some (b0 % 4 * 16 + b1 / 16) :=
      sextet_sextetChar _ (by omega)
    have h3 : sextet (sextetChar (b1 % 16 * 4 + b2 / 64)) = some (b1 % 16 * 4 + b2 / 64) :=
      sextet_sextetChar _ (by omega)
    have h4 : sextet (sextetChar (b2 % 64)) = some (b2 % 64) := sextet_sextetChar _ (by omega)
    have hne : sextetChar (b2 % 64) ≠ 61 := sextetChar_ne61 _ (by omega)
    simp only [b64EncodeStd, b64DecodeGroups, h1, h2, h3, h4]
    simp [hne, ih]
    all_goals omega

/-- Round trip of the modelled standard base64 stream decoder against the
standard encoder. -/
theorem b64DecodeStd_encode (bs : List Nat) (h : ∀ b ∈ bs, b < 256) :
    b64DecodeStd (b64EncodeStd bs) = .ok bs := by
  unfold b64DecodeStd
  rw [b64EncodeStd_filter]
  exact b64DecodeGroups_encode bs h


/-! ## Claim C1 -/

/-- Claim C1 as stated is false.  It asserts that a pointer field's pointee is
constructed only when a form value or file part is actually written, and that
with neither present (field not required) the pointer field is left unmodified
(nil).  At this concrete request with no data at all under key "n",
`Unmarshal` still allocates the pointee: the *int field ends up non-nil,
pointing at zero. -/
theorem c1_counterexample :
    Unmarshal ⟨"application/x-www-form-urlencoded", .ok [], [], none⟩
        (.ptr [⟨"N", [("form", "n")], .ptr .int⟩] [.ptrNil])
      = (.ptr [⟨"N", [("form", "n")], .ptr .int⟩] [.ptrTo (.int 0)], none)
    ∧ GoValue.ptrTo (.int 0) ≠ .ptrNil :=
  ⟨rfl, by simp⟩

/-- Claim C1 amended: for every destination field of pointer representation
whose tag is a non-skip key, the pointee is allocated unconditionally when the
field is processed — before the form and file lookups; in particular, when the
request contains neither a form value nor a file part for its key and the
field is not required, the field is not left nil but set to a pointer to the
zero value of its element type. -/
theorem c1_pointer_always_allocated (r : Request) (f : StructField) (v : GoValue)
    (elemT : GoType) (tag : String) (opts : flags)
    (htype : f.type = .ptr elemT)
    (htag : parseTag (tagGet f.tags "form") = (tag, opts))
    (h1 : tag ≠ "") (h2 : tag ≠ "-") :
    (∃ w, (processField r f v).1 = .ptrTo w)
    ∧ (formLookup r.form tag = [] → fileHeaders r tag = [] → opts.required = false →
        processField r f v = (.ptrTo (zeroValue elemT), none)) := by
  have hkind : f.type.kind = GoKind.ptr := by rw [htype]; rfl
  have hstart : allocStart f v = zeroValue elemT := by
    unfold allocStart
    rw [if_pos hkind, htype]
    rfl
  constructor
  · rcases hb : bindValue r tag opts f (effKind f) (allocStart f v) with e | v1
    · have hp := processField_err r f v tag opts e htag h1 h2 hb
      refine ⟨zeroValue (elemType f.type), ?_⟩
      rw [hp]
      unfold allocIfPtr
      rw [if_pos hkind]
    · have hp := processField_ok r f v tag opts v1 htag h1 h2 hb
      refine ⟨v1, ?_⟩
      rw [hp]
      simp [hkind]
  · intro hform hfile hreq
    have hb : bindValue r tag opts f (effKind f) (allocStart f v) = .ok (allocStart f v) := by
      rw [bindValue_noForm r tag opts f _ _ hform,
        decodeMultipart_noFiles r tag _ _ opts hfile, if_neg (by simp [hreq])]
    have hp := processField_ok r f v tag opts (allocStart f v) htag h1 h2 hb
    rw [hp, if_pos hkind, hstart]

/-- Witness for C1 (amended) at the counterexample's request and field. -/
theorem c1_witness :
    processField ⟨"application/x-www-form-urlencoded", .ok [], [], none⟩
        ⟨"N", [("form", "n")], .ptr .int⟩ .ptrNil = (.ptrTo (.int 0), none) :=
  (c1_pointer_always_allocated ⟨"application/x-www-form-urlencoded", .ok [], [], none⟩
    ⟨"N", [("form", "n")], .ptr .int⟩ .ptrNil .int "n" ⟨false, false⟩ rfl rfl
    (by decide) (by decide)).2 rfl rfl rfl

/-! ## Claim C2 -/

/-- Claim C2 as stated is false.  It asserts that any field whose effective
kind is outside the supported set fails with `UnsupportedTypeError`, naming
non-byte slice types as an instance; but `decodeFormValue`'s slice case
silently falls through for a slice type other than []byte: decoding a form
value into such a field returns no error and leaves the field untouched, as
this concrete run shows. -/
theorem c2_counterexample :
    decodeFormValue .sliceOther .slice ⟨"S", [("form", "s")], .sliceOther⟩ "x"
      = .ok .sliceOther
    ∧ Unmarshal ⟨"application/x-www-form-urlencoded", .ok [], [("s", ["x"])], none⟩
        (.ptr [⟨"S", [("form", "s")], .sliceOther⟩] [.sliceOther])
      = (.ptr [⟨"S", [("form", "s")], .sliceOther⟩] [.sliceOther], none) :=
  ⟨rfl, rfl⟩

/-- Claim C2 amended: decoding a single form value fails with the
unsupported-destination error for every effective kind outside the switch's
cases (pointer, interface, map, and the other unlisted kinds) and for struct
types other than time.Time; a slice type other than a byte slice, however,
does not fail — the decode silently succeeds and leaves the field
unmodified. -/
theorem c2_unsupported_kinds (valf : GoValue) (f : StructField) (fv : String) :
    (∀ kind : GoKind,
      kind ∉ ([.bool, .int, .int8, .int16, .int32, .int64, .uint, .uint8, .uint16,
        .uint32, .uint64, .float32, .float64, .string, .slice, .struct_] : List GoKind) →
      decodeFormValue valf kind f fv = .error (.msg "goform: invalid destination type"))
    ∧ ((∀ t, valf ≠ .timeTime t) →
      decodeFormValue valf .struct_ f fv = .error (.msg "goform: invalid destination type"))
    ∧ ((∀ bs, valf ≠ .bytes bs) → decodeFormValue valf .slice f fv = .ok valf) := by
  refine ⟨?_, ?_, ?_⟩
  · intro kind hk
    cases kind <;> first | rfl | (exact absurd (by decide) hk)
  · intro ht
    cases valf <;> first | rfl | (exact absurd rfl (ht _))
  · intro hbs
    cases valf <;> first | rfl | (exact absurd rfl (hbs _))

/-- Witness for C2 (amended): a map kind and a non-time struct kind fail with
the unsupported-destination error, a non-byte slice silently succeeds. -/
theorem c2_witness :
    decodeFormValue .mapV .map_ ⟨"M", [("form", "m")], .mapT⟩ "x"
      = .error (.msg "goform: invalid destination type")
    ∧ decodeFormValue .structOther .struct_ ⟨"T", [("form", "t")], .structOther⟩ "x"
      = .error (.msg "goform: invalid destination type")
    ∧ decodeFormValue .sliceOther .slice ⟨"S2", [("form", "s2")], .sliceOther⟩ "y"
      = .ok .sliceOther :=
  ⟨(c2_unsupported_kinds .mapV ⟨"M", [("form", "m")], .mapT⟩ "x").1 .map_ (by decide),
    (c2_unsupported_kinds .structOther ⟨"T", [("form", "t")], .structOther⟩ "x").2.1
      (by intro t; simp),
    (c2_unsupported_kinds .sliceOther ⟨"S2", [("form", "s2")], .sliceOther⟩ "y").2.2
      (by intro bs; simp)⟩

/-! ## Claim C3 -/

/-- Claim C3 as stated is false.  It asserts that a key mapping to more than
one raw value in the request's value sources (the union of form/query entries
and multipart file parts) makes the bind fail with
`MultiValueUnsupportedError`.  At this concrete request the key "f" maps to
two file parts — two raw values among the value sources — yet the bind
succeeds, silently using the first part only. -/
theorem c3_counterexample :
    Unmarshal ⟨"multipart/form-data", .ok [], [], some [("f", [⟨[1, 2]⟩, ⟨[3]⟩])]⟩
        (.ptr [⟨"F", [("form", "f")], .bytes⟩] [.bytes []])
      = (.ptr [⟨"F", [("form", "f")], .bytes⟩] [.bytes [1, 2]], none)
    ∧ (fileHeaders ⟨"multipart/form-data", .ok [], [], some [("f", [⟨[1, 2]⟩, ⟨[3]⟩])]⟩
        "f").length = 2 :=
  ⟨rfl, rfl⟩

/-- Claim C3 amended: if a non-skipped field's key maps to more than one raw
value in the single-valued form/query map, the bind fails immediately with
the array-unsupported error and the whole bind aborts — the failing field and
every later field are left unwritten (bar the pointer allocation).  Multiple
multipart *file parts* under the key do not trigger this error: the multipart
path decodes the first part and ignores the rest. -/
theorem c3_multi_value (r : Request) (f : StructField) (fs : List StructField)
    (v : GoValue) (vs : List GoValue) (tag : String) (opts : flags)
    (htag : parseTag (tagGet f.tags "form") = (tag, opts)) (h1 : tag ≠ "") (h2 : tag ≠ "-") :
    ((formLookup r.form tag).length > 1 →
      bindLoop r (f :: fs) (v :: vs)
        = (allocIfPtr f v :: vs, some (.msg "goform: arrays not supported yet")))
    ∧ (∀ (valf : GoValue) (kind : GoKind) (opts2 : flags) (p : FilePart) (ps : List FilePart),
        fileHeaders r tag = p :: ps →
        decodeMultipart r tag valf kind opts2 = decodeMultipartFile valf kind opts2 p) := by
  constructor
  · intro hmulti
    have hb := bindValue_multi r tag opts f (effKind f) (allocStart f v) hmulti
    have hp := processField_err r f v tag opts _ htag h1 h2 hb
    exact bindLoop_cons_err r f fs v _ vs _ hp
  · intro valf kind opts2 p ps hfile
    exact decodeMultipart_file r tag valf kind opts2 p ps hfile

/-- Witness for C3 (amended): two form values under "x" abort the loop with
the array-unsupported error, leaving the later field untouched. -/
theorem c3_witness :
    bindLoop ⟨"application/x-www-form-urlencoded", .ok [], [("x", ["1", "2"])], none⟩
      [⟨"X", [("form", "x")], .int⟩, ⟨"Y", [("form", "y")], .int⟩]
      [.int 0, .int 5]
    = ([.int 0, .int 5], some (.msg "goform: arrays not supported yet")) :=
  (c3_multi_value ⟨"application/x-www-form-urlencoded", .ok [], [("x", ["1", "2"])], none⟩
    ⟨"X", [("form", "x")], .int⟩ [⟨"Y", [("form", "y")], .int⟩]
    (.int 0) [.int 5] "x" ⟨false, false⟩ rfl (by decide) (by decide)).1 (by decide)

/-! ## Claim C4 -/

/-- Claim C4 as stated is false in its zero-value half.  It asserts that a
non-required field with no form value is left at its zero value; but when a
file part exists under the key, the multipart path decodes it into the field.
At this concrete request the non-required []byte field receives the uploaded
bytes, not its zero value. -/
theorem c4_counterexample :
    Unmarshal ⟨"multipart/form-data", .ok [], [], some [("f", [⟨[104, 105]⟩])]⟩
        (.ptr [⟨"F", [("form", "f")], .bytes⟩] [.bytes []])
      = (.ptr [⟨"F", [("form", "f")], .bytes⟩] [.bytes [104, 105]], none)
    ∧ GoValue.bytes [104, 105] ≠ .bytes [] :=
  ⟨rfl, by simp⟩

/-- Claim C4 amended: for a non-skipped field whose key has zero form values
*and no file part either*: with the required flag set the bind fails with an
error message identifying the field's source key and aborts; without it the
field keeps the value the allocation step left (its previous value for a
non-pointer field — its zero value if it started there — and a freshly
allocated zero pointee for a pointer field) and binding continues with the
next field.  (When a file part does exist it is decoded into the field
instead; see the counterexample.) -/
theorem c4_required_vs_zero (r : Request) (f : StructField) (fs : List StructField)
    (v : GoValue) (vs : List GoValue) (tag : String) (opts : flags)
    (htag : parseTag (tagGet f.tags "form") = (tag, opts)) (h1 : tag ≠ "") (h2 : tag ≠ "-")
    (hform : formLookup r.form tag = []) (hfile : fileHeaders r tag = []) :
    (opts.required = true →
      bindLoop r (f :: fs) (v :: vs)
        = (allocIfPtr f v :: vs,
            some (.msg ("goform: missing required field [" ++ tag ++ "]"))))
    ∧ (opts.required = false →
      bindLoop r (f :: fs) (v :: vs)
        = (allocIfPtr f v :: (bindLoop r fs vs).1, (bindLoop r fs vs).2)) := by
  have hbm := bindValue_noForm r tag opts f (effKind f) (allocStart f v) hform
  have hdm := decodeMultipart_noFiles r tag (allocStart f v) (effKind f) opts hfile
  constructor
  · intro hreq
    have hb : bindValue r tag opts f (effKind f) (allocStart f v)
        = .error (.msg ("goform: missing required field [" ++ tag ++ "]")) := by
      rw [hbm, hdm, if_pos hreq]
    have hp := processField_err r f v tag opts _ htag h1 h2 hb
    exact bindLoop_cons_err r f fs v _ vs _ hp
  · intro hreq
    have hb : bindValue r tag opts f (effKind f) (allocStart f v) = .ok (allocStart f v) := by
      rw [hbm, hdm, if_neg (by simp [hreq])]
    have hp := processField_ok r f v tag opts (allocStart f v) htag h1 h2 hb
    have halloc : (if f.type.kind = GoKind.ptr then GoValue.ptrTo (allocStart f v)
        else allocStart f v) = allocIfPtr f v := by
      unfold allocIfPtr allocStart
      by_cases hptr : f.type.kind = GoKind.ptr <;> simp [hptr]
    rw [halloc] at hp
    exact bindLoop_cons_ok r f fs v _ vs hp

/-- Witness for C4 (amended): a required int field with no data fails naming
its key "x"; a non-required string field with no data is left at its zero
value and the loop completes. -/
theorem c4_witness :
    bindLoop ⟨"application/x-www-form-urlencoded", .ok [], [], none⟩
      [⟨"X", [("form", "x,required")], .int⟩] [.int 0]
    = ([.int 0], some (.msg "goform: missing required field [x]"))
    ∧ bindLoop ⟨"application/x-www-form-urlencoded", .ok [], [], none⟩
      [⟨"Y", [("form", "y")], .string⟩] [.string ""]
    = ([.string ""], none) := by
  constructor
  · exact (c4_required_vs_zero ⟨"application/x-www-form-urlencoded", .ok [], [], none⟩
      ⟨"X", [("form", "x,required")], .int⟩ [] (.int 0) []
      "x" ⟨false, true⟩ rfl (by decide) (by decide) rfl rfl).1 rfl
  · exact (c4_required_vs_zero ⟨"application/x-www-form-urlencoded", .ok [], [], none⟩
      ⟨"Y", [("form", "y")], .string⟩ [] (.string "") []
      "y" ⟨false, false⟩ rfl (by decide) (by decide) rfl rfl).2 rfl

/-! ## Claim C5 -/

/-- Claim C5: the bind is all-or-nothing per call with no rollback.  If the
prefix of the declared fields before index i binds cleanly and the field at
index i fails, then the loop returns that field's error, every earlier field
keeps exactly the value the loop assigned it (`ws`, aligned index for index),
the failing field keeps what its own processing left behind, and every field
after index i is returned untouched. -/
theorem c5_all_or_nothing (r : Request) (fs1 : List StructField) (vs1 : List GoValue)
    (f : StructField) (fs2 : List StructField) (v v1 : GoValue) (vs2 : List GoValue)
    (e : GoErr) (ws : List GoValue)
    (hlen : fs1.length = vs1.length)
    (hpre : bindLoop r fs1 vs1 = (ws, none))
    (hfail : processField r f v = (v1, some e)) :
    bindLoop r (fs1 ++ f :: fs2) (vs1 ++ v :: vs2) = (ws ++ v1 :: vs2, some e)
    ∧ ws.length = vs1.length := by
  have happ := bindLoop_append_ok r fs1 vs1 (f :: fs2) (v :: vs2) hlen (by rw [hpre])
  have hhead := bindLoop_cons_err r f fs2 v v1 vs2 e hfail
  rw [hpre, hhead] at happ
  refine ⟨happ, ?_⟩
  have hl := bindLoop_length r fs1 vs1
  rw [hpre] at hl
  exact hl

/-- Witness for C5: a two-field prefix/suffix around a failing integer field;
the successfully written name survives, the suffix field is untouched. -/
theorem c5_witness :
    bindLoop ⟨"application/x-www-form-urlencoded", .ok [],
        [("name", ["rick"]), ("age", ["x"]), ("id", ["7"])], none⟩
      ([⟨"Name", [("form", "name")], .string⟩] ++ ⟨"Age", [("form", "age")], .int⟩ ::
        [⟨"ID", [("form", "id")], .int⟩])
      ([.string ""] ++ GoValue.int 0 :: [.int 0])
    = ([.string "rick"] ++ GoValue.int 0 :: [.int 0],
        some (.numError "ParseInt" "x" .errSyntax)) :=
  (c5_all_or_nothing ⟨"application/x-www-form-urlencoded", .ok [],
        [("name", ["rick"]), ("age", ["x"]), ("id", ["7"])], none⟩
      [⟨"Name", [("form", "name")], .string⟩] [.string ""]
      ⟨"Age", [("form", "age")], .int⟩ [⟨"ID", [("form", "id")], .int⟩]
      (.int 0) (.int 0) [.int 0]
      (.numError "ParseInt" "x" .errSyntax) [.string "rick"]
      rfl rfl rfl).1

/-! ## Claim C7 -/

/-- Claim C7: binding a multipart file part into a byte-sequence field
assigns bytes identical to the uploaded part's content; with the base64 flag
set and content that is valid standard-alphabet base64 (in particular any
encoder output), the assigned bytes are the base64-decoded content instead. -/
theorem c7_multipart_bytes (old : List Nat) (kind : GoKind) (opts : flags) (hdr : FilePart) :
    (opts.base64 = false →
      decodeMultipartFile (.bytes old) kind opts hdr = .ok (.bytes hdr.content))
    ∧ (∀ bs, opts.base64 = true → b64DecodeStd hdr.content = .ok bs →
      decodeMultipartFile (.bytes old) kind opts hdr = .ok (.bytes bs))
    ∧ (∀ bs : List Nat, (∀ b ∈ bs, b < 256) → b64DecodeStd (b64EncodeStd bs) = .ok bs) := by
  refine ⟨?_, ?_, fun bs h => b64DecodeStd_encode bs h⟩
  · intro hb
    simp [decodeMultipartFile, readAllPart, hb]
  · intro bs hb hd
    simp [decodeMultipartFile, readAllPart, hb, hd]

/-- Witness for C7: the two-byte upload "hi" as is, and its base64 encoding
"aGk=" through the base64 flag. -/
theorem c7_witness :
    decodeMultipartFile (.bytes []) .slice ⟨false, false⟩ ⟨[104, 105]⟩ = .ok (.bytes [104, 105])
    ∧ decodeMultipartFile (.bytes []) .slice ⟨true, false⟩ ⟨[97, 71, 107, 61]⟩
      = .ok (.bytes [104, 105])
    ∧ b64DecodeStd (b64EncodeStd [104, 105]) = .ok [104, 105] := by
  refine ⟨(c7_multipart_bytes [] .slice ⟨false, false⟩ ⟨[104, 105]⟩).1 rfl,
    (c7_multipart_bytes [] .slice ⟨true, false⟩ ⟨[97, 71, 107, 61]⟩).2.1 [104, 105] rfl rfl,
    (c7_multipart_bytes [] .slice ⟨false, false⟩ ⟨[]⟩).2.2 [104, 105] (by decide)⟩

/-! ## Claim C8 -/

/-- Claim C8: for every integer-kind destination field (signed or unsigned,
any requested bit width) and raw string value, the decoder reads the field's
"base" annotation, defaulting to base 10 when absent; it fails with the
"invalid int base" error if the annotation is present but is not itself a
valid base-10 (32-bit) integer; otherwise it parses the raw value with
`strconv.ParseInt` / `ParseUint` at the requested signedness and bit width in
that base, failing with the resulting `*NumError` when the value does not
parse and assigning the parsed integer on success. -/
theorem c8_int_base (valf : GoValue) (tags : List (String × String))
    (bitSize : Int) (value : String) :
    (tagLookup tags "base" = none →
      decodeInt valf tags bitSize value = intResult value (goParseInt (strBytes value) 10 bitSize)
      ∧ decodeUint valf tags bitSize value
        = uintResult value (goParseUint (strBytes value) 10 bitSize))
    ∧ (∀ baseStr e, tagLookup tags "base" = some baseStr →
      (goParseInt (strBytes baseStr) 10 32).2 = some e →
      decodeInt valf tags bitSize value = .error (.msg "invalid int base")
      ∧ decodeUint valf tags bitSize value = .error (.msg "invalid int base"))
    ∧ (∀ baseStr b, tagLookup tags "base" = some baseStr →
      goParseInt (strBytes baseStr) 10 32 = (b, none) →
      decodeInt valf tags bitSize value = intResult value (goParseInt (strBytes value) b bitSize)
      ∧ decodeUint valf tags bitSize value
        = uintResult value (goParseUint (strBytes value) b bitSize)) := by
  refine ⟨?_, ?_, ?_⟩
  · intro hnone
    constructor
    · unfold decodeInt base
      rw [hnone]
      rcases hp : goParseInt (strBytes value) 10 bitSize with ⟨n, e?⟩
      cases e? <;> simp [hp, intResult, numErr]
    · unfold decodeUint base
      rw [hnone]
      rcases hp : goParseUint (strBytes value) 10 bitSize with ⟨n, e?⟩
      cases e? <;> simp [hp, uintResult, numErr]
  · intro baseStr e hsome herr
    rcases hp : goParseInt (strBytes baseStr) 10 32 with ⟨b, e?⟩
    rw [hp] at herr
    cases e? with
    | none => simp at herr
    | some e0 =>
      constructor
      · unfold decodeInt base
        simp only [hsome, hp]
      · unfold decodeUint base
        simp only [hsome, hp]
  · intro baseStr b hsome hok
    constructor
    · unfold decodeInt base
      simp only [hsome, hok]
      rcases hp : goParseInt (strBytes value) b bitSize with ⟨n, e?⟩
      cases e? <;> simp [hp, intResult, numErr]
    · unfold decodeUint base
      simp only [hsome, hok]
      rcases hp : goParseUint (strBytes value) b bitSize with ⟨n, e?⟩
      cases e? <;> simp [hp, uintResult, numErr]

/-- Witness for C8: default base on a plain decimal, an explicit base 16
annotation, and a malformed base annotation. -/
theorem c8_witness :
    decodeInt (.int 0) [] 64 "39" = .ok (.int 39)
    ∧ decodeInt (.int 0) [("base", "16")] 64 "ff" = .ok (.int 255)
    ∧ decodeUint (.uint 0) [("base", "zz")] 8 "1" = .error (.msg "invalid int base") := by
  refine ⟨?_, ?_, ?_⟩
  · have h := ((c8_int_base (.int 0) [] 64 "39").1 rfl).1
    rw [h]
    rfl
  · have h := ((c8_int_base (.int 0) [("base", "16")] 64 "ff").2.2 "16" 16 rfl rfl).1
    rw [h]
    rfl
  · exact ((c8_int_base (.uint 0) [("base", "zz")] 8 "1").2.1 "zz" .errSyntax
      rfl rfl).2

/-! ## Claim C9 -/

/-- Claim C9: for every request whose Content-Type header is absent or empty
(`r.Header.Get` yields the empty string in both cases), `Unmarshal` fails
immediately with the media-type parse error, before any JSON decoding,
form/multipart parsing, or field binding occurs, and leaves the destination
record unmodified — even for requests (such as plain query-string GETs) that
carry bindable data. -/
theorem c9_empty_content_type (r : Request) (v : GoDest) (h : r.contentType = "") :
    Unmarshal r v = (v, some (.msg "mime: no media type")) := by
  unfold Unmarshal
  rw [h]
  rfl

/-- Witness for C9 at a concrete request that carries a bindable query value
and a destination it would bind into. -/
theorem c9_witness :
    Unmarshal ⟨"", .ok [], [("id", ["1"])], none⟩
        (.ptr [⟨"ID", [("form", "id")], .int⟩] [.int 0])
      = (.ptr [⟨"ID", [("form", "id")], .int⟩] [.int 0], some (.msg "mime: no media type")) :=
  c9_empty_content_type ⟨"", .ok [], [("id", ["1"])], none⟩
    (.ptr [⟨"ID", [("form", "id")], .int⟩] [.int 0]) rfl

/-! ## Claim C10 -/

/-- Claim C10: for every request whose parsed media type is not
application/json, calling `Unmarshal` with a non-pointer destination returns
the error "goform: v must be a pointer" without binding any field; when the
media type is application/json, the JSON decode step runs before this pointer
check, so the non-pointer case surfaces as the JSON decoder's own error (a
json error, never a goform message). -/
theorem c10_non_pointer (r : Request) (m : String)
    (h : parseMediaType r.contentType = .ok m) :
    (m ≠ "application/json" →
      Unmarshal r .nonPtr = (.nonPtr, some (.msg "goform: v must be a pointer")))
    ∧ (m = "application/json" →
      ∃ e, Unmarshal r .nonPtr = (.nonPtr, some e)
        ∧ jsonDecode r.body .nonPtr = (.nonPtr, some e)
        ∧ ∀ s, e ≠ .msg s) := by
  constructor
  · intro hm
    simp [Unmarshal, jsonStep, h, hm]
  · intro hm
    subst hm
    rcases hb : r.body with e | ups
    · refine ⟨.jsonError e, ?_, ?_, ?_⟩
      · simp [Unmarshal, jsonStep, jsonDecode, h, hb]
      · simp [jsonDecode, hb]
      · intro s hs
        cases hs
    · refine ⟨.jsonError "json: Unmarshal(non-pointer value)", ?_, ?_, ?_⟩
      · simp [Unmarshal, jsonStep, jsonDecode, h, hb]
      · simp [jsonDecode, hb]
      · intro s hs
        cases hs

/-- Witness for C10, both branches at concrete requests: a url-encoded
request with a non-pointer destination yields the pointer error, and a JSON
request with a well-formed body and a non-pointer destination yields the json
invalid-unmarshal error. -/
theorem c10_witness :
    Unmarshal ⟨"application/x-www-form-urlencoded", .ok [], [("id", ["1"])], none⟩ .nonPtr
      = (.nonPtr, some (.msg "goform: v must be a pointer"))
    ∧ Unmarshal ⟨"application/json", .ok [], [], none⟩ .nonPtr
      = (.nonPtr, some (.jsonError "json: Unmarshal(non-pointer value)")) := by
  constructor
  · exact (c10_non_pointer ⟨"application/x-www-form-urlencoded", .ok [], [("id", ["1"])], none⟩
      "application/x-www-form-urlencoded" rfl).1 (by decide)
  · rcases (c10_non_pointer ⟨"application/json", .ok [], [], none⟩
        "application/json" rfl).2 rfl with ⟨e, he, hj, _⟩
    have he2 : some e = some (GoErr.jsonError "json: Unmarshal(non-pointer value)") := by
      simpa [jsonDecode] using congrArg Prod.snd hj.symm
    cases he2
    exact he

end Goform
